import Mathlib

/-!
Verification of the Tarucca IoT sensor-data processor (src/processor.py).

The development is a shallow embedding of the three functions of the module:
`validate_data`, `calculate_metrics` and `process_sensor_data`.  Python floats
are embedded as rationals (`ℚ`), exact where the source computes with IEEE
doubles; the square root used by `statistics.stdev` leaves `ℚ`, so it is
abstracted as an explicit function parameter `sq : ℚ → ℚ`.  Python's
insertion-ordered `dict` is embedded as an association list whose keys keep
first-occurrence order.  Fallible code (a bare `except:` or an operation that
can raise) is embedded with `Option`: `none` is a raised exception at that
point.  Timestamps are the parsed form of the ISO-8601 text the data model
prescribes for every Raw Record, so `datetime.fromisoformat` is the identity
on them and `datetime.replace(minute=0, second=0, microsecond=0)` is the
truncation `truncHour`.
-/

namespace Tarucca

/-- A parsed ISO-8601 timestamp, the embedding of a Python `datetime` value
(naive, as the source produces them). -/
structure Timestamp where
  year : ℕ
  month : ℕ
  day : ℕ
  hour : ℕ
  minute : ℕ
  second : ℕ
  microsecond : ℕ
deriving DecidableEq

/-- Embedding of `ts.replace(minute=0, second=0, microsecond=0)` from
`calculate_metrics`: the timestamp truncated to the start of its calendar
hour. -/
def truncHour (t : Timestamp) : Timestamp :=
  { t with minute := 0, second := 0, microsecond := 0 }

/-- A raw CSV row as `validate_data` and the coercion loop see it: each of the
four numeric fields is `some q` when `float(row[field])` succeeds with value
`q`, and `none` when the field is missing or non-numeric (the `float` call
raises).  The timestamp field holds ISO-8601 text by the data model and is
carried in parsed form. -/
structure RawRecord where
  voltage : Option ℚ
  current : Option ℚ
  temperature : Option ℚ
  power : Option ℚ
  timestamp : Timestamp
deriving DecidableEq

/-- The validated, fully-typed Sensor Reading: the dict that reaches
`calculate_metrics` after the coercion loop replaced the four fields by
floats. -/
structure SensorReading where
  voltage : ℚ
  current : ℚ
  temperature : ℚ
  power : ℚ
  timestamp : Timestamp
deriving DecidableEq

/-- Embedding of `validate_data` (processor.py lines 19-40).  Each `match`
on a `none` field is the `KeyError`/`ValueError` the source's bare `except:`
turns into `return False`; the range tests mirror the source's comparisons
in source order. -/
def validate_data (record : RawRecord) : Bool :=
  match record.voltage with
  | none => false
  | some voltage =>
    if voltage < 18 ∨ voltage > 32 then false
    else
      match record.current with
      | none => false
      | some current =>
        if current < 0 ∨ current > 12 then false
        else
          match record.temperature with
          | none => false
          | some temperature =>
            if temperature < -10 ∨ temperature > 80 then false
            else
              match record.power with
              | none => false
              | some power =>
                if power < 0 then false
                else true

/-- `statistics.mean`: the arithmetic mean of a list of numbers. -/
def mean (xs : List ℚ) : ℚ :=
  xs.sum / (xs.length : ℚ)

/-- Python's builtin `min` over a non-empty list (0 for the empty list, which
the source never reaches). -/
def listMin : List ℚ → ℚ
  | [] => 0
  | x :: xs => xs.foldl Min.min x

/-- Python's builtin `max` over a non-empty list (0 for the empty list, which
the source never reaches). -/
def listMax : List ℚ → ℚ
  | [] => 0
  | x :: xs => xs.foldl Max.max x

/-- The Bessel-corrected sample variance computed by `statistics.stdev`
before its square root: the sum of squared deviations from the mean, divided
by `n - 1`. -/
def sampleVariance (xs : List ℚ) : ℚ :=
  ((xs.map fun x => (x - mean xs) ^ 2).sum) / ((xs.length : ℚ) - 1)

/-- The hour bucket of a reading: its timestamp truncated to the hour, as
computed at processor.py lines 88-89. -/
def hourOf (r : SensorReading) : Timestamp :=
  truncHour r.timestamp

/-- One step of filling `hourly_power`: `hourly_power[hour].append(power)`
after `if hour not in hourly_power: hourly_power[hour] = []`.  The
association list keeps keys in first-insertion order and appends the power to
the entry of an existing key, exactly as a Python dict does. -/
def addReading : List (Timestamp × List ℚ) → Timestamp → ℚ → List (Timestamp × List ℚ)
  | [], h, p => [(h, [p])]
  | (k, vs) :: rest, h, p =>
    if k = h then (k, vs ++ [p]) :: rest else (k, vs) :: addReading rest h p

/-- The `hourly_power` dict of `calculate_metrics` (lines 85-94) after the
bucketing loop, as an association list in key-insertion order. -/
def hourlyPower (data : List SensorReading) : List (Timestamp × List ℚ) :=
  data.foldl (fun b r => addReading b (hourOf r) r.power) []

/-- The peak-hour search loop of `calculate_metrics` (lines 97-104): fold
over the buckets in dict order carrying `(peak_hour, highest_avg)`, starting
from `(None, -1)`, replacing the pair whenever a bucket's mean power strictly
exceeds the best so far. -/
def peakFold : List (Timestamp × List ℚ) → Option Timestamp → ℚ → Option Timestamp × ℚ
  | [], cur, best => (cur, best)
  | (h, vs) :: rest, cur, best =>
    if mean vs > best then peakFold rest (some h) (mean vs) else peakFold rest cur best

/-- The `"voltage"` block of the metrics dict: `avg`, `min`, `max` and `std`.
Only the voltage block carries `std` in the source. -/
structure VoltageStats where
  avg : ℚ
  min : ℚ
  max : ℚ
  std : ℚ
deriving DecidableEq

/-- The `"current"` and `"temperature"` blocks of the metrics dict: `avg`,
`min`, `max`, with no `std` entry. -/
structure FieldStats where
  avg : ℚ
  min : ℚ
  max : ℚ
deriving DecidableEq

/-- The dict returned by `calculate_metrics` (lines 106-125).
`peak_power_hour` is kept as the timestamp whose `isoformat()` the source
stores. -/
structure Metrics where
  voltage : VoltageStats
  current : FieldStats
  temperature : FieldStats
  total_energy_kwh : ℚ
  peak_power_hour : Timestamp
deriving DecidableEq

/-- Embedding of `calculate_metrics` (lines 44-125), parameterised by the
square root `sq` that `statistics.stdev` applies to the sample variance.
`none` is a raised exception: `statistics.mean` on an empty list (data
empty), or `peak_hour.isoformat()` when the search left `peak_hour = None`.
Both raises happen inside the caller's `try`, so the caller sees them as its
generic exception branch. -/
def calculate_metrics (sq : ℚ → ℚ) (data : List SensorReading) : Option Metrics :=
  if data.isEmpty then none
  else
    match (peakFold (hourlyPower data) none (-1)).1 with
    | none => none
    | some peak =>
      some
        { voltage :=
            { avg := mean (data.map fun r => r.voltage)
              min := listMin (data.map fun r => r.voltage)
              max := listMax (data.map fun r => r.voltage)
              std :=
                if 1 < (data.map fun r => r.voltage).length then
                  sq (sampleVariance (data.map fun r => r.voltage))
                else 0 }
          current :=
            { avg := mean (data.map fun r => r.current)
              min := listMin (data.map fun r => r.current)
              max := listMax (data.map fun r => r.current) }
          temperature :=
            { avg := mean (data.map fun r => r.temperature)
              min := listMin (data.map fun r => r.temperature)
              max := listMax (data.map fun r => r.temperature) }
          total_energy_kwh :=
            (data.map fun r => r.power).foldl (fun acc p => acc + p * (5 / 60) / 1000) 0
          peak_power_hour := peak }

/-- The `status` literal of a Batch Result: `"pending"` is the initial value
of the result dict, overwritten before any return. -/
inductive Status where
  | pending
  | success
  | error
deriving DecidableEq

/-- The result dict `process_sensor_data` returns (lines 131-139 initial
shape).  `metrics = none` embeds the initial `{}`; `error = some msg` the
`result["error"]` key, absent (`none`) when never set. -/
structure BatchResult where
  input_file : String
  output_file : Option String
  processed_at : String
  status : Status
  records_processed : ℕ
  records_invalid : ℕ
  metrics : Option Metrics
  error : Option String
deriving DecidableEq

/-- The JSON document `process_sensor_data` writes on success
(lines 191-200). -/
structure OutputDoc where
  input_file : String
  output_file : String
  processed_at : String
  status : Status
  records_processed : ℕ
  records_invalid : ℕ
  metrics : Metrics
deriving DecidableEq

/-- The coercion step of the row loop (lines 158-166): the four
`float(row[...])` conversions.  `none` when any of them raises, in which case
the source counts the row invalid and continues. -/
def coerceRow (r : RawRecord) : Option SensorReading :=
  match r.voltage, r.current, r.temperature, r.power with
  | some v, some c, some t, some p => some ⟨v, c, t, p, r.timestamp⟩
  | _, _, _, _ => none

/-- One iteration of the row loop (lines 157-172) on the state
`(valid_records, invalid_count)`. -/
def rowStep (acc : List SensorReading × ℕ) (r : RawRecord) : List SensorReading × ℕ :=
  match coerceRow r with
  | none => (acc.1, acc.2 + 1)
  | some sr => if validate_data r then (acc.1 ++ [sr], acc.2) else (acc.1, acc.2 + 1)

/-- The whole row loop: `(valid_records, invalid_count)` after reading every
row. -/
def readRows (rows : List RawRecord) : List SensorReading × ℕ :=
  rows.foldl rowStep ([], 0)

/-- A row survives the pipeline's per-row filtering when its four numeric
fields coerce and `validate_data` accepts it. -/
def rowValid (r : RawRecord) : Bool :=
  (coerceRow r).isSome && validate_data r

/-- The reading a row contributes to `valid_records`, when it contributes
one. -/
def pickRow (r : RawRecord) : Option SensorReading :=
  match coerceRow r with
  | none => none
  | some sr => if validate_data r then some sr else none

/-- Embedding of `process_sensor_data` (lines 130-214).  The file system is
abstracted: `input = none` is a missing input file, `some rows` its parsed
CSV rows; `now` is the `datetime.now().isoformat()` text; `stem` is
`Path(input_file).stem`.  The second component of the result is the written
output artifact, `none` when the function returns before `json.dump`.  The
branch where `calculate_metrics` raises is the enclosing `except Exception`
(lines 211-214), which stringifies the exception into `result["error"]`
leaving the counts at their initial zeros. -/
def process_sensor_data (input_file now stem : String) (sq : ℚ → ℚ)
    (input : Option (List RawRecord)) : BatchResult × Option OutputDoc :=
  match input with
  | none =>
    ({ input_file := input_file, output_file := none, processed_at := now,
       status := Status.error, records_processed := 0, records_invalid := 0,
       metrics := none, error := some "Input file does not exist" }, none)
  | some rows =>
    if ((readRows rows).1).isEmpty then
      ({ input_file := input_file, output_file := none, processed_at := now,
         status := Status.error, records_processed := 0,
         records_invalid := (readRows rows).2,
         metrics := none, error := some "All records invalid" }, none)
    else
      match calculate_metrics sq (readRows rows).1 with
      | none =>
        ({ input_file := input_file, output_file := none, processed_at := now,
           status := Status.error, records_processed := 0, records_invalid := 0,
           metrics := none, error := some "exception raised during processing" }, none)
      | some m =>
        ({ input_file := input_file, output_file := some (stem ++ "_processed.json"),
           processed_at := now, status := Status.success,
           records_processed := ((readRows rows).1).length,
           records_invalid := (readRows rows).2,
           metrics := some m, error := none },
         some { input_file := input_file, output_file := stem ++ "_processed.json",
                processed_at := now, status := Status.success,
                records_processed := ((readRows rows).1).length,
                records_invalid := (readRows rows).2, metrics := m })

/-- Spec-side definition (follows the claim's words, to be compared with
`hourlyPower`): the distinct elements of a list in order of first
appearance. -/
def firstOccs : List Timestamp → List Timestamp
  | [] => []
  | h :: hs => h :: firstOccs (hs.filter fun x => decide (x ≠ h))
termination_by l => l.length
decreasing_by
  exact Nat.lt_succ_of_le (List.length_filter_le _ _)

/-- Spec-side definition: the powers of the readings whose truncated hour is
`h`, in input order. -/
def bucketOf (data : List SensorReading) (h : Timestamp) : List ℚ :=
  (data.filter fun r => decide (hourOf r = h)).map fun r => r.power

/-- Spec-side definition of the bucketization the claim describes: one bucket
per distinct truncated hour, buckets in first-occurrence order of their hour,
each holding the powers of its readings in input order. -/
def bucketSpec (data : List SensorReading) : List (Timestamp × List ℚ) :=
  (firstOccs (data.map hourOf)).map fun h => (h, bucketOf data h)

/-- Spec-side characterisation of the claim's peak-hour rule: `t` is the hour
of a bucket whose mean power no bucket exceeds and every strictly earlier
bucket falls strictly below — the first bucket attaining the highest mean. -/
def PeakIsFirstMax (bs : List (Timestamp × List ℚ)) (t : Timestamp) : Prop :=
  ∃ pre b post, bs = pre ++ b :: post ∧ b.1 = t ∧
    (∀ x ∈ bs, mean x.2 ≤ mean b.2) ∧
    (∀ x ∈ pre, mean x.2 < mean b.2)

/-- A sample timestamp for concrete instantiations. -/
def wTs (h m : ℕ) : Timestamp :=
  ⟨2024, 1, 15, h, m, 30, 0⟩

/-- A sample in-range reading at hour `h`, minute `m`, with power `p`. -/
def wReading (h m : ℕ) (p : ℚ) : SensorReading :=
  ⟨24, 5, 25, p, wTs h m⟩

/-- Three readings: hour 1 (power 10), hour 2 (power 20), hour 1 again
(power 10) — the spec's peak-hour example shape. -/
def wData3 : List SensorReading :=
  [wReading 1 0 10, wReading 2 0 20, wReading 1 30 10]

/-- A single reading, for the degenerate standard-deviation case. -/
def wData1 : List SensorReading :=
  [wReading 1 0 10]

/-- An in-range raw row. -/
def wGood : RawRecord :=
  ⟨some 24, some 5, some 25, some 120, wTs 1 0⟩

/-- A second in-range raw row. -/
def wGood2 : RawRecord :=
  ⟨some 20, some 3, some 30, some 60, wTs 2 0⟩

/-- A third in-range raw row. -/
def wGood3 : RawRecord :=
  ⟨some 30, some 8, some 15, some 200, wTs 3 0⟩

/-- A raw row with out-of-range voltage. -/
def wBadVolt : RawRecord :=
  ⟨some 50, some 5, some 25, some 10, wTs 1 0⟩

/-- A raw row whose current field failed numeric coercion. -/
def wBadCur : RawRecord :=
  ⟨some 24, none, some 25, some 10, wTs 1 0⟩

/-- Five rows: three valid, one out-of-range, one non-numeric — the spec's
end-to-end example batch. -/
def wRows5 : List RawRecord :=
  [wGood, wBadVolt, wGood2, wBadCur, wGood3]

/-- Two rows, both invalid. -/
def wRows2 : List RawRecord :=
  [wBadVolt, wBadCur]

lemma mem_firstOccs_aux :
    ∀ (n : ℕ) (hs : List Timestamp), hs.length ≤ n →
      ∀ x : Timestamp, (x ∈ firstOccs hs ↔ x ∈ hs) := by
  intro n
  induction n with
  | zero =>
    intro hs hlen x
    have hnil : hs = [] := List.length_eq_zero.mp (Nat.le_zero.mp hlen)
    subst hnil
    simp [firstOccs]
  | succ n ih =>
    intro hs hlen x
    match hs with
    | [] => simp [firstOccs]
    | h :: t =>
      have htn : t.length ≤ n := by simpa using hlen
      have hfl : (t.filter fun y => decide (y ≠ h)).length ≤ n :=
        le_trans (List.length_filter_le _ _) htn
      simp only [firstOccs, List.mem_cons]
      rw [ih _ hfl x]
      constructor
      · rintro (rfl | hx)
        · exact Or.inl rfl
        · exact Or.inr (List.mem_filter.mp hx).1
      · rintro (rfl | hx)
        · exact Or.inl rfl
        · by_cases hxh : x = h
          · exact Or.inl hxh
          · exact Or.inr (List.mem_filter.mpr ⟨hx, by simp [hxh]⟩)

lemma mem_firstOccs (hs : List Timestamp) (x : Timestamp) :
    x ∈ firstOccs hs ↔ x ∈ hs :=
  mem_firstOccs_aux hs.length hs le_rfl x

lemma firstOccs_nodup_aux :
    ∀ (n : ℕ) (hs : List Timestamp), hs.length ≤ n → (firstOccs hs).Nodup := by
  intro n
  induction n with
  | zero =>
    intro hs hlen
    have hnil : hs = [] := List.length_eq_zero.mp (Nat.le_zero.mp hlen)
    subst hnil
    simp [firstOccs]
  | succ n ih =>
    intro hs hlen
    match hs with
    | [] => simp [firstOccs]
    | h :: t =>
      have htn : t.length ≤ n := by simpa using hlen
      have hfl : (t.filter fun y => decide (y ≠ h)).length ≤ n :=
        le_trans (List.length_filter_le _ _) htn
      simp only [firstOccs, List.nodup_cons]
      refine ⟨fun hmem => ?_, ih _ hfl⟩
      have hmem2 := (mem_firstOccs _ _).mp hmem
      have := (List.mem_filter.mp hmem2).2
      simp at this

lemma firstOccs_nodup (hs : List Timestamp) : (firstOccs hs).Nodup :=
  firstOccs_nodup_aux hs.length hs le_rfl

lemma firstOccs_append_aux :
    ∀ (n : ℕ) (hs : List Timestamp), hs.length ≤ n → ∀ h : Timestamp,
      firstOccs (hs ++ [h]) =
        if h ∈ hs then firstOccs hs else firstOccs hs ++ [h] := by
  intro n
  induction n with
  | zero =>
    intro hs hlen h
    have hnil : hs = [] := List.length_eq_zero.mp (Nat.le_zero.mp hlen)
    subst hnil
    simp [firstOccs]
  | succ n ih =>
    intro hs hlen h
    match hs with
    | [] => simp [firstOccs]
    | h0 :: t =>
      have htn : t.length ≤ n := by simpa using hlen
      have hfl : (t.filter fun y => decide (y ≠ h0)).length ≤ n :=
        le_trans (List.length_filter_le _ _) htn
      have hcons : (h0 :: t) ++ [h] = h0 :: (t ++ [h]) := rfl
      rw [hcons]
      by_cases hh : h = h0
      · subst hh
        have hfilter : (t ++ [h]).filter (fun y => decide (y ≠ h)) =
            t.filter (fun y => decide (y ≠ h)) := by
          rw [List.filter_append]; simp
        simp only [firstOccs, hfilter, List.mem_cons, true_or, if_pos]
      · have hfilter : (t ++ [h]).filter (fun y => decide (y ≠ h0)) =
            t.filter (fun y => decide (y ≠ h0)) ++ [h] := by
          rw [List.filter_append]; simp [hh]
        simp only [firstOccs, hfilter]
        rw [ih _ hfl h]
        have hmemf : h ∈ t.filter (fun y => decide (y ≠ h0)) ↔ h ∈ t := by
          simp [List.mem_filter, hh]
        by_cases hht : h ∈ t
        · rw [if_pos (hmemf.mpr hht), if_pos (by simp [hht])]
        · rw [if_neg (fun c => hht (hmemf.mp c)),
            if_neg (by simp [hh, hht])]
          rfl

lemma firstOccs_append (hs : List Timestamp) (h : Timestamp) :
    firstOccs (hs ++ [h]) =
      if h ∈ hs then firstOccs hs else firstOccs hs ++ [h] :=
  firstOccs_append_aux hs.length hs le_rfl h

lemma bucketOf_append (data : List SensorReading) (r : SensorReading) (h : Timestamp) :
    bucketOf (data ++ [r]) h =
      bucketOf data h ++ (if hourOf r = h then [r.power] else []) := by
  simp only [bucketOf, List.filter_append, List.map_append]
  by_cases hc : hourOf r = h
  · simp [hc]
  · simp [hc]

lemma bucketOf_eq_nil (data : List SensorReading) (h : Timestamp)
    (hh : h ∉ data.map hourOf) : bucketOf data h = [] := by
  simp only [bucketOf]
  have : data.filter (fun r => decide (hourOf r = h)) = [] := by
    rw [List.filter_eq_nil_iff]
    intro r hr
    simp only [decide_eq_true_eq]
    intro heq
    exact hh (List.mem_map.mpr ⟨r, hr, heq⟩)
  rw [this, List.map_nil]

lemma addReading_not_mem :
    ∀ (bs : List (Timestamp × List ℚ)) (h : Timestamp) (p : ℚ),
      h ∉ bs.map Prod.fst → addReading bs h p = bs ++ [(h, [p])] := by
  intro bs
  induction bs with
  | nil => intro h p _; rfl
  | cons b rest ih =>
    intro h p hmem
    obtain ⟨k, vs⟩ := b
    simp only [List.map_cons, List.mem_cons] at hmem
    push_neg at hmem
    simp only [addReading]
    rw [if_neg (fun c => hmem.1 (Eq.symm c)), ih h p hmem.2]
    simp

lemma addReading_mem :
    ∀ (bs : List (Timestamp × List ℚ)) (h : Timestamp) (p : ℚ),
      (bs.map Prod.fst).Nodup → h ∈ bs.map Prod.fst →
      addReading bs h p = bs.map fun b => if b.1 = h then (b.1, b.2 ++ [p]) else b := by
  intro bs
  induction bs with
  | nil => intro h p _ hmem; simp at hmem
  | cons b rest ih =>
    intro h p hnd hmem
    obtain ⟨k, vs⟩ := b
    simp only [List.map_cons, List.nodup_cons] at hnd
    simp only [List.map_cons, List.mem_cons] at hmem
    rcases hmem with hk | hrest
    · subst hk
      have hrest_id :
          rest.map (fun b => if b.1 = h then (b.1, b.2 ++ [p]) else b) = rest := by
        have := List.map_congr_left (l := rest)
          (f := fun b => if b.1 = h then (b.1, b.2 ++ [p]) else b) (g := fun b => b)
          (fun b hb => by
            have : b.1 ≠ h := fun c => hnd.1 (c ▸ List.mem_map.mpr ⟨b, hb, rfl⟩)
            simp [this])
        simpa using this
      simp only [addReading, List.map_cons, hrest_id]
      simp
    · have hkh : k ≠ h := fun c => hnd.1 (c ▸ hrest)
      simp only [addReading, if_neg hkh, List.map_cons, if_neg hkh]
      rw [ih h p hnd.2 hrest]

lemma hourlyPower_append (data : List SensorReading) (r : SensorReading) :
    hourlyPower (data ++ [r]) = addReading (hourlyPower data) (hourOf r) r.power := by
  simp [hourlyPower, List.foldl_append]

lemma bucketSpec_keys (data : List SensorReading) :
    (bucketSpec data).map Prod.fst = firstOccs (data.map hourOf) := by
  rw [bucketSpec, List.map_map]
  exact List.map_id _

lemma hourlyPower_eq_bucketSpec (data : List SensorReading) :
    hourlyPower data = bucketSpec data := by
  induction data using List.reverseRecOn with
  | nil => simp [hourlyPower, bucketSpec, firstOccs]
  | append_singleton data r ih =>
    rw [hourlyPower_append, ih]
    have hmaps : (data ++ [r]).map hourOf = data.map hourOf ++ [hourOf r] := by simp
    by_cases hmem : hourOf r ∈ data.map hourOf
    · have h1 : hourOf r ∈ (bucketSpec data).map Prod.fst := by
        rw [bucketSpec_keys]; exact (mem_firstOccs _ _).mpr hmem
      rw [addReading_mem _ _ _ (by rw [bucketSpec_keys]; exact firstOccs_nodup _) h1]
      simp only [bucketSpec, List.map_map, hmaps, firstOccs_append, if_pos hmem]
      apply List.map_congr_left
      intro h hh
      simp only [Function.comp]
      rw [bucketOf_append]
      by_cases hcase : h = hourOf r
      · subst hcase
        simp
      · have hcase2 : hourOf r ≠ h := fun c => hcase c.symm
        simp [hcase, hcase2]
    · have h1 : hourOf r ∉ (bucketSpec data).map Prod.fst := by
        rw [bucketSpec_keys]
        exact fun c => hmem ((mem_firstOccs _ _).mp c)
      rw [addReading_not_mem _ _ _ h1]
      simp only [bucketSpec, hmaps, firstOccs_append, if_neg hmem, List.map_append]
      congr 1
      · apply List.map_congr_left
        intro h hh
        rw [bucketOf_append]
        have hne : hourOf r ≠ h := by
          intro c
          exact hmem (c ▸ (mem_firstOccs _ _).mp hh)
        simp [hne]
      · simp only [List.map_cons, List.map_nil]
        rw [bucketOf_append, bucketOf_eq_nil _ _ hmem]
        simp

lemma peakFold_go :
    ∀ (bs : List (Timestamp × List ℚ)) (cur : Option Timestamp) (best : ℚ),
      (∀ b ∈ bs, mean b.2 ≤ best) → peakFold bs cur best = (cur, best) := by
  intro bs
  induction bs with
  | nil => intro cur best _; rfl
  | cons b rest ih =>
    intro cur best hall
    obtain ⟨h, vs⟩ := b
    have hb : mean vs ≤ best := hall (h, vs) (by simp)
    simp only [peakFold]
    rw [if_neg (not_lt.mpr hb)]
    exact ih cur best fun x hx => hall x (by simp [hx])

lemma peakFold_pick :
    ∀ (bs : List (Timestamp × List ℚ)) (cur : Option Timestamp) (best : ℚ),
      (∃ b ∈ bs, best < mean b.2) →
      ∃ pre b post, bs = pre ++ b :: post ∧
        peakFold bs cur best = (some b.1, mean b.2) ∧
        best < mean b.2 ∧
        (∀ x ∈ bs, mean x.2 ≤ mean b.2) ∧
        (∀ x ∈ pre, mean x.2 < mean b.2) := by
  intro bs
  induction bs with
  | nil => intro cur best h; simp at h
  | cons hd rest ih =>
    intro cur best hex
    obtain ⟨h0, vs0⟩ := hd
    by_cases hhd : best < mean vs0
    · by_cases hr : ∃ x ∈ rest, mean vs0 < mean x.2
      · obtain ⟨pre, b, post, heq, hfold, hlt, hall, hpre⟩ := ih (some h0) (mean vs0) hr
        refine ⟨(h0, vs0) :: pre, b, post, by rw [heq]; simp, ?_, lt_trans hhd hlt, ?_, ?_⟩
        · simp only [peakFold]
          rw [if_pos hhd]
          exact hfold
        · intro x hx
          rcases List.mem_cons.mp hx with rfl | hx2
          · exact le_of_lt hlt
          · exact hall x hx2
        · intro x hx
          rcases List.mem_cons.mp hx with rfl | hx2
          · exact hlt
          · exact hpre x hx2
      · push_neg at hr
        refine ⟨[], (h0, vs0), rest, rfl, ?_, hhd, ?_, by simp⟩
        · simp only [peakFold]
          rw [if_pos hhd]
          exact peakFold_go rest (some h0) (mean vs0) hr
        · intro x hx
          rcases List.mem_cons.mp hx with rfl | hx2
          · exact le_rfl
          · exact hr x hx2
    · have hex2 : ∃ x ∈ rest, best < mean x.2 := by
        obtain ⟨b0, hb0, hlt0⟩ := hex
        rcases List.mem_cons.mp hb0 with rfl | hmem
        · exact absurd hlt0 hhd
        · exact ⟨b0, hmem, hlt0⟩
      obtain ⟨pre, b, post, heq, hfold, hlt, hall, hpre⟩ := ih cur best hex2
      have hhd2 : mean vs0 ≤ best := not_lt.mp hhd
      refine ⟨(h0, vs0) :: pre, b, post, by rw [heq]; simp, ?_, hlt, ?_, ?_⟩
      · simp only [peakFold]
        rw [if_neg hhd]
        exact hfold
      · intro x hx
        rcases List.mem_cons.mp hx with rfl | hx2
        · exact le_of_lt (lt_of_le_of_lt hhd2 hlt)
        · exact hall x hx2
      · intro x hx
        rcases List.mem_cons.mp hx with rfl | hx2
        · exact lt_of_le_of_lt hhd2 hlt
        · exact hpre x hx2

lemma mean_nonneg (xs : List ℚ) (h : ∀ x ∈ xs, 0 ≤ x) : 0 ≤ mean xs :=
  div_nonneg (List.sum_nonneg h) (Nat.cast_nonneg _)

lemma hourlyPower_mem_power (data : List SensorReading) (b : Timestamp × List ℚ)
    (hb : b ∈ hourlyPower data) (x : ℚ) (hx : x ∈ b.2) : ∃ r ∈ data, x = r.power := by
  rw [hourlyPower_eq_bucketSpec] at hb
  obtain ⟨h, hh, rfl⟩ := List.mem_map.mp hb
  simp only [bucketOf] at hx
  obtain ⟨r, hr, hpr⟩ := List.mem_map.mp hx
  exact ⟨r, (List.mem_filter.mp hr).1, hpr.symm⟩

lemma hourlyPower_ne_nil (data : List SensorReading) (hne : data ≠ []) :
    hourlyPower data ≠ [] := by
  rw [hourlyPower_eq_bucketSpec]
  cases data with
  | nil => exact absurd rfl hne
  | cons a l => simp [bucketSpec, firstOccs]

lemma exists_bucket_gt (data : List SensorReading) (hne : data ≠ [])
    (hpow : ∀ r ∈ data, 0 ≤ r.power) :
    ∃ b ∈ hourlyPower data, (-1 : ℚ) < mean b.2 := by
  cases hhp : hourlyPower data with
  | nil => exact absurd hhp (hourlyPower_ne_nil data hne)
  | cons b rest =>
    refine ⟨b, by simp [hhp], ?_⟩
    have hnn : 0 ≤ mean b.2 := by
      apply mean_nonneg
      intro x hx
      obtain ⟨r, hr, rfl⟩ :=
        hourlyPower_mem_power data b (by simp [hhp]) x hx
      exact hpow r hr
    linarith

lemma calculate_metrics_some (sq : ℚ → ℚ) (data : List SensorReading) (peak : Timestamp)
    (hne : data ≠ [])
    (hpk : (peakFold (hourlyPower data) none (-1)).1 = some peak) :
    calculate_metrics sq data = some
      { voltage :=
          { avg := mean (data.map fun r => r.voltage)
            min := listMin (data.map fun r => r.voltage)
            max := listMax (data.map fun r => r.voltage)
            std :=
              if 1 < (data.map fun r => r.voltage).length then
                sq (sampleVariance (data.map fun r => r.voltage))
              else 0 }
        current :=
          { avg := mean (data.map fun r => r.current)
            min := listMin (data.map fun r => r.current)
            max := listMax (data.map fun r => r.current) }
        temperature :=
          { avg := mean (data.map fun r => r.temperature)
            min := listMin (data.map fun r => r.temperature)
            max := listMax (data.map fun r => r.temperature) }
        total_energy_kwh :=
          (data.map fun r => r.power).foldl (fun acc p => acc + p * (5 / 60) / 1000) 0
        peak_power_hour := peak } := by
  cases data with
  | nil => exact absurd rfl hne
  | cons a l =>
    simp only [calculate_metrics, List.isEmpty_cons, Bool.false_eq_true, if_false, hpk]

lemma metrics_master (sq : ℚ → ℚ) (data : List SensorReading)
    (hne : data ≠ []) (hpow : ∀ r ∈ data, 0 ≤ r.power) :
    ∃ m pre b post,
      calculate_metrics sq data = some m ∧
      hourlyPower data = pre ++ b :: post ∧
      peakFold (hourlyPower data) none (-1) = (some b.1, mean b.2) ∧
      (∀ x ∈ hourlyPower data, mean x.2 ≤ mean b.2) ∧
      (∀ x ∈ pre, mean x.2 < mean b.2) ∧
      m.peak_power_hour = b.1 ∧
      m.total_energy_kwh =
        (data.map fun r => r.power).foldl (fun acc p => acc + p * (5 / 60) / 1000) 0 ∧
      m.voltage.std =
        (if 1 < (data.map fun r => r.voltage).length then
          sq (sampleVariance (data.map fun r => r.voltage))
        else 0) := by
  obtain ⟨b0, hb0, hgt⟩ := exists_bucket_gt data hne hpow
  obtain ⟨pre, b, post, heq, hfold, _, hall, hpre⟩ :=
    peakFold_pick (hourlyPower data) none (-1) ⟨b0, hb0, hgt⟩
  refine ⟨_, pre, b, post,
    calculate_metrics_some sq data b.1 hne (by rw [hfold]), heq, hfold, hall, hpre,
    rfl, rfl, rfl⟩

lemma foldl_energy (xs : List ℚ) :
    ∀ c : ℚ, xs.foldl (fun acc p => acc + p * (5 / 60) / 1000) c
      = c + (xs.map fun p => p * (5 / 60) / 1000).sum := by
  induction xs with
  | nil => intro c; simp
  | cons x xs ih => intro c; simp [ih, add_assoc]

lemma validate_data_iff (r : RawRecord) (v c t p : ℚ)
    (hv : r.voltage = some v) (hc : r.current = some c)
    (ht : r.temperature = some t) (hp : r.power = some p) :
    validate_data r = true ↔
      18 ≤ v ∧ v ≤ 32 ∧ 0 ≤ c ∧ c ≤ 12 ∧ -10 ≤ t ∧ t ≤ 80 ∧ 0 ≤ p := by
  simp only [validate_data, hv, hc, ht, hp]
  split_ifs with h1 h2 h3 h4
  · simp only [Bool.false_eq_true, false_iff]
    intro hP
    obtain ⟨p1, p2, p3, p4, p5, p6, p7⟩ := hP
    rcases h1 with h | h <;> linarith
  · simp only [Bool.false_eq_true, false_iff]
    intro hP
    obtain ⟨p1, p2, p3, p4, p5, p6, p7⟩ := hP
    rcases h2 with h | h <;> linarith
  · simp only [Bool.false_eq_true, false_iff]
    intro hP
    obtain ⟨p1, p2, p3, p4, p5, p6, p7⟩ := hP
    rcases h3 with h | h <;> linarith
  · simp only [Bool.false_eq_true, false_iff]
    intro hP
    obtain ⟨p1, p2, p3, p4, p5, p6, p7⟩ := hP
    linarith
  · push_neg at h1 h2 h3 h4
    exact iff_of_true rfl ⟨h1.1, h1.2, h2.1, h2.2, h3.1, h3.2, h4⟩

lemma readRows_go :
    ∀ (rows : List RawRecord) (acc : List SensorReading × ℕ),
      rows.foldl rowStep acc =
        (acc.1 ++ rows.filterMap pickRow,
         acc.2 + rows.countP fun r => ! rowValid r) := by
  intro rows
  induction rows with
  | nil => intro acc; simp
  | cons r rest ih =>
    intro acc
    simp only [List.foldl_cons]
    cases hc : coerceRow r with
    | none =>
      have hval : rowValid r = false := by simp [rowValid, hc]
      rw [show rowStep acc r = (acc.1, acc.2 + 1) from by simp [rowStep, hc], ih]
      simp [List.filterMap_cons, List.countP_cons, pickRow, hc, hval,
        Prod.ext_iff]
      omega
    | some sr =>
      cases hval : validate_data r with
      | true =>
        have hrv : rowValid r = true := by simp [rowValid, hc, hval]
        rw [show rowStep acc r = (acc.1 ++ [sr], acc.2) from by
          simp [rowStep, hc, hval], ih]
        simp [List.filterMap_cons, List.countP_cons, pickRow, hc, hval, hrv,
          Prod.ext_iff]
      | false =>
        have hrv : rowValid r = false := by simp [rowValid, hc, hval]
        rw [show rowStep acc r = (acc.1, acc.2 + 1) from by
          simp [rowStep, hc, hval], ih]
        simp [List.filterMap_cons, List.countP_cons, pickRow, hc, hval, hrv,
          Prod.ext_iff]
        omega

lemma readRows_eq (rows : List RawRecord) :
    readRows rows = (rows.filterMap pickRow, rows.countP fun r => ! rowValid r) := by
  have h := readRows_go rows ([], 0)
  simpa [readRows] using h

lemma filterMap_pickRow_length (rows : List RawRecord) :
    (rows.filterMap pickRow).length = rows.countP rowValid := by
  induction rows with
  | nil => rfl
  | cons r rest ih =>
    rw [List.filterMap_cons, List.countP_cons]
    cases hc : coerceRow r with
    | none => simp [pickRow, hc, rowValid, ih]
    | some sr =>
      cases hval : validate_data r with
      | false => simp [pickRow, hc, hval, rowValid, ih]
      | true => simp [pickRow, hc, hval, rowValid, ih]

lemma pickRow_spec (r : RawRecord) (sr : SensorReading) (hp : pickRow r = some sr) :
    coerceRow r = some sr ∧ validate_data r = true := by
  cases hc : coerceRow r with
  | none => simp [pickRow, hc] at hp
  | some sr0 =>
    cases hval : validate_data r with
    | false => simp [pickRow, hc, hval] at hp
    | true =>
      have hp2 : some sr0 = some sr := by
        rw [← hp]
        simp [pickRow, hc, hval]
      injection hp2 with h
      subst h
      exact ⟨rfl, rfl⟩

lemma coerceRow_fields (r : RawRecord) (sr : SensorReading)
    (hc : coerceRow r = some sr) :
    r.voltage = some sr.voltage ∧ r.current = some sr.current ∧
    r.temperature = some sr.temperature ∧ r.power = some sr.power := by
  obtain ⟨ov, oc, ot, op, ts⟩ := r
  cases ov <;> cases oc <;> cases ot <;> cases op <;>
    simp only [coerceRow] at hc <;>
    first
    | exact Option.noConfusion hc
    | (injection hc with h
       subst h
       exact ⟨rfl, rfl, rfl, rfl⟩)

lemma pickRow_power (r : RawRecord) (sr : SensorReading)
    (hp : pickRow r = some sr) : 0 ≤ sr.power := by
  obtain ⟨hc, hval⟩ := pickRow_spec r sr hp
  obtain ⟨h1, h2, h3, h4⟩ := coerceRow_fields r sr hc
  exact ((validate_data_iff r _ _ _ _ h1 h2 h3 h4).mp hval).2.2.2.2.2.2

lemma bnot_eq_decide (p : RawRecord → Bool) :
    (fun r => ! p r) = fun r => decide (¬ p r = true) := by
  funext r
  cases p r <;> simp

/-- Claim C1: for every raw record whose four numeric fields parse as
floats, `validate_data` returns accept if and only if 18 ≤ voltage ≤ 32,
0 ≤ current ≤ 12, -10 ≤ temperature ≤ 80 and power ≥ 0 all hold; in
particular, whenever any single field lies outside its range it returns
reject. -/
theorem claim_C1_validator_ranges (r : RawRecord) (v c t p : ℚ)
    (hv : r.voltage = some v) (hc : r.current = some c)
    (ht : r.temperature = some t) (hp : r.power = some p) :
    validate_data r = true ↔
      18 ≤ v ∧ v ≤ 32 ∧ 0 ≤ c ∧ c ≤ 12 ∧ -10 ≤ t ∧ t ≤ 80 ∧ 0 ≤ p :=
  validate_data_iff r v c t p hv hc ht hp

/-- Witness for C1: a fully-parsed in-range record, with the range facts
evaluated concretely. -/
theorem claim_C1_witness :
    validate_data wGood = true ↔
      18 ≤ (24 : ℚ) ∧ (24 : ℚ) ≤ 32 ∧ 0 ≤ (5 : ℚ) ∧ (5 : ℚ) ≤ 12 ∧
      -10 ≤ (25 : ℚ) ∧ (25 : ℚ) ≤ 80 ∧ 0 ≤ (120 : ℚ) :=
  claim_C1_validator_ranges wGood 24 5 25 120 rfl rfl rfl rfl

/-- Claim C2: `validate_data` always returns a verdict — it is a total
Boolean function (the bare `except:` in the source converts every raised
exception into `False`, which the embedding realises by totality) — and on
any record with a missing or non-numeric field the verdict is reject. -/
theorem claim_C2_validator_total (r : RawRecord) :
    (validate_data r = true ∨ validate_data r = false) ∧
    ((r.voltage = none ∨ r.current = none ∨ r.temperature = none ∨
        r.power = none) →
      validate_data r = false) := by
  constructor
  · cases hb : validate_data r
    · exact Or.inr rfl
    · exact Or.inl rfl
  · intro h
    rcases h with h | h | h | h
    · simp [validate_data, h]
    · cases hov : r.voltage with
      | none => simp [validate_data, hov]
      | some v => simp [validate_data, hov, h]
    · cases hov : r.voltage with
      | none => simp [validate_data, hov]
      | some v =>
        cases hoc : r.current with
        | none => simp [validate_data, hov, hoc]
        | some c => simp [validate_data, hov, hoc, h]
    · cases hov : r.voltage with
      | none => simp [validate_data, hov]
      | some v =>
        cases hoc : r.current with
        | none => simp [validate_data, hov, hoc]
        | some c =>
          cases hot : r.temperature with
          | none => simp [validate_data, hov, hoc, hot]
          | some t => simp [validate_data, hov, hoc, hot, h]

/-- Witness for C2: a record whose current field failed to parse is
rejected. -/
theorem claim_C2_witness : validate_data wBadCur = false :=
  (claim_C2_validator_total wBadCur).2 (Or.inr (Or.inl rfl))

/-- Claim C3: for every non-empty sequence of sensor readings (power
non-negative, per the Sensor Reading invariant), `calculate_metrics` buckets
readings by their timestamp truncated to the calendar hour, in
first-occurrence order with each bucket holding its readings' powers in input
order (`hourlyPower = bucketSpec`), and reports as `peak_power_hour` the
first bucket attaining the strictly highest mean power — ties keep the
earlier bucket. -/
theorem claim_C3_peak_hour (sq : ℚ → ℚ) (data : List SensorReading)
    (hne : data ≠ []) (hpow : ∀ r ∈ data, 0 ≤ r.power) :
    hourlyPower data = bucketSpec data ∧
    ∃ m, calculate_metrics sq data = some m ∧
      PeakIsFirstMax (hourlyPower data) m.peak_power_hour := by
  obtain ⟨m, pre, b, post, hm, heq, _, hall, hpre, hpk, _, _⟩ :=
    metrics_master sq data hne hpow
  exact ⟨hourlyPower_eq_bucketSpec data, m, hm,
    pre, b, post, heq, hpk.symm, hall, hpre⟩

/-- Witness for C3: hour 1 (power 10), hour 2 (power 20), hour 1 again —
the hypotheses hold by computation. -/
theorem claim_C3_witness :
    hourlyPower wData3 = bucketSpec wData3 ∧
    ∃ m, calculate_metrics id wData3 = some m ∧
      PeakIsFirstMax (hourlyPower wData3) m.peak_power_hour :=
  claim_C3_peak_hour id wData3 (by decide) (by decide)

/-- Claim C4: for every non-empty sequence of readings (with the Sensor
Reading power invariant), the reported `total_energy_kwh` is the sum over
all readings of power × (5/60) / 1000; in particular, for N identical
readings of power P it is N × (P × (5/60) / 1000). -/
theorem claim_C4_energy (sq : ℚ → ℚ) (data : List SensorReading)
    (hne : data ≠ []) (hpow : ∀ r ∈ data, 0 ≤ r.power) :
    ∃ m, calculate_metrics sq data = some m ∧
      m.total_energy_kwh = ((data.map fun r => r.power * (5 / 60) / 1000)).sum ∧
      ∀ (N : ℕ) (P : ℚ) (r0 : SensorReading),
        data = List.replicate N r0 → r0.power = P →
        m.total_energy_kwh = (N : ℚ) * (P * (5 / 60) / 1000) := by
  obtain ⟨m, _, _, _, hm, _, _, _, _, _, htot, _⟩ := metrics_master sq data hne hpow
  have hsum : m.total_energy_kwh =
      ((data.map fun r => r.power * (5 / 60) / 1000)).sum := by
    rw [htot, foldl_energy, List.map_map]
    simp only [zero_add]
    rfl
  refine ⟨m, hm, hsum, ?_⟩
  intro N P r0 hrep hP
  subst hP
  rw [hsum, hrep, List.map_replicate, List.sum_replicate, nsmul_eq_mul]

/-- Witness for C4 at the three-reading input. -/
theorem claim_C4_witness :
    ∃ m, calculate_metrics id wData3 = some m ∧
      m.total_energy_kwh = ((wData3.map fun r => r.power * (5 / 60) / 1000)).sum ∧
      ∀ (N : ℕ) (P : ℚ) (r0 : SensorReading),
        wData3 = List.replicate N r0 → r0.power = P →
        m.total_energy_kwh = (N : ℚ) * (P * (5 / 60) / 1000) :=
  claim_C4_energy id wData3 (by decide) (by decide)

/-- Claim C5: for every non-empty sequence of readings (with the power
invariant), the voltage block's `std` is exactly 0 when there is one
reading, and for more than one reading it is the square root (the abstracted
`sq`) of the Bessel-corrected sample variance of the voltages — the sum of
squared deviations from their mean divided by n − 1.  In the embedding the
`std` entry exists only in `VoltageStats`; the current and temperature
blocks (`FieldStats`) have no such field. -/
theorem claim_C5_voltage_std (sq : ℚ → ℚ) (data : List SensorReading)
    (hne : data ≠ []) (hpow : ∀ r ∈ data, 0 ≤ r.power) :
    ∃ m, calculate_metrics sq data = some m ∧
      (data.length = 1 → m.voltage.std = 0) ∧
      (1 < data.length →
        m.voltage.std =
          sq ((((data.map fun r => r.voltage).map fun x =>
              (x - mean (data.map fun r => r.voltage)) ^ 2).sum) /
            ((data.length : ℚ) - 1))) := by
  obtain ⟨m, _, _, _, hm, _, _, _, _, _, _, hstd⟩ := metrics_master sq data hne hpow
  refine ⟨m, hm, ?_, ?_⟩
  · intro h1
    rw [hstd, if_neg]
    rw [List.length_map]
    omega
  · intro h1
    rw [hstd, if_pos (by rw [List.length_map]; exact h1)]
    simp only [sampleVariance, List.length_map]

/-- Witness for C5 at the single-reading input, where `std` is exactly 0. -/
theorem claim_C5_witness :
    ∃ m, calculate_metrics id wData1 = some m ∧
      (wData1.length = 1 → m.voltage.std = 0) ∧
      (1 < wData1.length →
        m.voltage.std =
          id ((((wData1.map fun r => r.voltage).map fun x =>
              (x - mean (wData1.map fun r => r.voltage)) ^ 2).sum) /
            ((wData1.length : ℚ) - 1))) :=
  claim_C5_voltage_std id wData1 (by decide) (by decide)

/-- Claim C6: for every batch whose rows all fail coercion or validation,
`process_sensor_data` returns an error result with the explicit message
"All records invalid", reports `records_invalid` equal to the total row
count, carries no metrics (the aggregator is never reached), and writes no
output artifact. -/
theorem claim_C6_all_invalid (f now stem : String) (sq : ℚ → ℚ)
    (rows : List RawRecord)
    (hall : ∀ r ∈ rows, coerceRow r = none ∨ validate_data r = false) :
    (process_sensor_data f now stem sq (some rows)).1.status = Status.error ∧
    (process_sensor_data f now stem sq (some rows)).1.error =
      some "All records invalid" ∧
    (process_sensor_data f now stem sq (some rows)).1.records_invalid =
      rows.length ∧
    (process_sensor_data f now stem sq (some rows)).1.records_processed = 0 ∧
    (process_sensor_data f now stem sq (some rows)).1.metrics = none ∧
    (process_sensor_data f now stem sq (some rows)).1.output_file = none ∧
    (process_sensor_data f now stem sq (some rows)).2 = none := by
  have hvalid : ∀ r ∈ rows, rowValid r = false := by
    intro r hr
    rcases hall r hr with h | h <;> simp [rowValid, h]
  have hcount : (rows.countP fun r => ! rowValid r) = rows.length := by
    rw [List.countP_eq_length]
    intro r hr
    simp [hvalid r hr]
  have hempty : (readRows rows).1 = [] := by
    rw [readRows_eq]
    simp only
    rw [← List.length_eq_zero, filterMap_pickRow_length, List.countP_eq_zero]
    intro r hr
    simp [hvalid r hr]
  have hinv : (readRows rows).2 = rows.length := by
    rw [readRows_eq]
    exact hcount
  simp [process_sensor_data, hempty, hinv]

/-- Witness for C6: two rows, one out of range and one non-numeric. -/
theorem claim_C6_witness :
    (process_sensor_data "a.csv" "now" "a" id (some wRows2)).1.status =
      Status.error ∧
    (process_sensor_data "a.csv" "now" "a" id (some wRows2)).1.error =
      some "All records invalid" ∧
    (process_sensor_data "a.csv" "now" "a" id (some wRows2)).1.records_invalid =
      wRows2.length ∧
    (process_sensor_data "a.csv" "now" "a" id (some wRows2)).1.records_processed = 0 ∧
    (process_sensor_data "a.csv" "now" "a" id (some wRows2)).1.metrics = none ∧
    (process_sensor_data "a.csv" "now" "a" id (some wRows2)).1.output_file = none ∧
    (process_sensor_data "a.csv" "now" "a" id (some wRows2)).2 = none :=
  claim_C6_all_invalid "a.csv" "now" "a" id wRows2 (by decide)

/-- Claim C7: for every batch with at least one row passing both coercion
and validation, `process_sensor_data` returns a success result whose
`records_processed` counts exactly the rows passing both steps and whose
`records_invalid` counts the rows failing either; the two counts sum to the
total row count and an output artifact is written. -/
theorem claim_C7_counts (f now stem : String) (sq : ℚ → ℚ)
    (rows : List RawRecord) (hpos : 0 < rows.countP rowValid) :
    (process_sensor_data f now stem sq (some rows)).1.status = Status.success ∧
    (process_sensor_data f now stem sq (some rows)).1.records_processed =
      rows.countP rowValid ∧
    (process_sensor_data f now stem sq (some rows)).1.records_invalid =
      (rows.countP fun r => ! rowValid r) ∧
    (process_sensor_data f now stem sq (some rows)).1.records_processed +
      (process_sensor_data f now stem sq (some rows)).1.records_invalid =
      rows.length ∧
    (process_sensor_data f now stem sq (some rows)).2 ≠ none := by
  have hlen : ((readRows rows).1).length = rows.countP rowValid := by
    rw [readRows_eq]
    exact filterMap_pickRow_length rows
  have hne : (readRows rows).1 ≠ [] := by
    intro h
    rw [h] at hlen
    simp only [List.length_nil] at hlen
    omega
  have hpow : ∀ sr ∈ (readRows rows).1, 0 ≤ sr.power := by
    intro sr hsr
    rw [readRows_eq] at hsr
    simp only at hsr
    obtain ⟨r, _, hpk⟩ := List.mem_filterMap.mp hsr
    exact pickRow_power r sr hpk
  obtain ⟨m, _, _, _, hm, _, _, _, _, _, _, _⟩ :=
    metrics_master sq (readRows rows).1 hne hpow
  have hempty : ¬ ((readRows rows).1).isEmpty = true := by
    rw [List.isEmpty_iff]
    exact hne
  have hinv : (readRows rows).2 = (rows.countP fun r => ! rowValid r) := by
    rw [readRows_eq]
  simp only [process_sensor_data]
  rw [if_neg hempty, hm]
  refine ⟨rfl, hlen, hinv, ?_, by simp⟩
  rw [hlen, hinv, bnot_eq_decide]
  exact (List.length_eq_countP_add_countP rowValid rows).symm

/-- Witness for C7: the spec's example batch of three valid and two invalid
rows. -/
theorem claim_C7_witness :
    (process_sensor_data "b.csv" "now" "b" id (some wRows5)).1.status =
      Status.success ∧
    (process_sensor_data "b.csv" "now" "b" id (some wRows5)).1.records_processed =
      wRows5.countP rowValid ∧
    (process_sensor_data "b.csv" "now" "b" id (some wRows5)).1.records_invalid =
      (wRows5.countP fun r => ! rowValid r) ∧
    (process_sensor_data "b.csv" "now" "b" id (some wRows5)).1.records_processed +
      (process_sensor_data "b.csv" "now" "b" id (some wRows5)).1.records_invalid =
      wRows5.length ∧
    (process_sensor_data "b.csv" "now" "b" id (some wRows5)).2 ≠ none :=
  claim_C7_counts "b.csv" "now" "b" id wRows5 (by decide)

/-- Claim C8: `process_sensor_data` never lets an exception escape — the
embedding is a total function whose every branch returns a result — and the
result always carries a definitive status: success with no error text, or
error with a human-readable message. -/
theorem claim_C8_no_escape (f now stem : String) (sq : ℚ → ℚ)
    (input : Option (List RawRecord)) :
    ((process_sensor_data f now stem sq input).1.status = Status.success ∧
      (process_sensor_data f now stem sq input).1.error = none) ∨
    ((process_sensor_data f now stem sq input).1.status = Status.error ∧
      ∃ msg, (process_sensor_data f now stem sq input).1.error = some msg) := by
  cases input with
  | none => exact Or.inr ⟨rfl, "Input file does not exist", rfl⟩
  | some rows =>
    by_cases hE : ((readRows rows).1).isEmpty = true
    · right
      simp only [process_sensor_data]
      rw [if_pos hE]
      exact ⟨rfl, "All records invalid", rfl⟩
    · cases hM : calculate_metrics sq (readRows rows).1 with
      | none =>
        right
        simp only [process_sensor_data]
        rw [if_neg hE, hM]
        exact ⟨rfl, "exception raised during processing", rfl⟩
      | some m =>
        left
        simp only [process_sensor_data]
        rw [if_neg hE, hM]
        exact ⟨rfl, rfl⟩

/-- Claim C9: processing is deterministic — two runs on the same input agree
on every field of the Batch Result (status, counts, metrics, error, file
names); only the processed-at timestamp, which is an input of the embedding,
differs between the runs. -/
theorem claim_C9_deterministic (f stem : String) (sq : ℚ → ℚ)
    (input : Option (List RawRecord)) (now1 now2 : String) :
    (process_sensor_data f now1 stem sq input).1.metrics =
      (process_sensor_data f now2 stem sq input).1.metrics ∧
    (process_sensor_data f now1 stem sq input).1.status =
      (process_sensor_data f now2 stem sq input).1.status ∧
    (process_sensor_data f now1 stem sq input).1.records_processed =
      (process_sensor_data f now2 stem sq input).1.records_processed ∧
    (process_sensor_data f now1 stem sq input).1.records_invalid =
      (process_sensor_data f now2 stem sq input).1.records_invalid ∧
    (process_sensor_data f now1 stem sq input).1.error =
      (process_sensor_data f now2 stem sq input).1.error ∧
    (process_sensor_data f now1 stem sq input).1.output_file =
      (process_sensor_data f now2 stem sq input).1.output_file ∧
    (process_sensor_data f now1 stem sq input).1.input_file =
      (process_sensor_data f now2 stem sq input).1.input_file ∧
    (process_sensor_data f now1 stem sq input).1.processed_at = now1 ∧
    (process_sensor_data f now2 stem sq input).1.processed_at = now2 := by
  cases input with
  | none => exact ⟨rfl, rfl, rfl, rfl, rfl, rfl, rfl, rfl, rfl⟩
  | some rows =>
    by_cases hE : ((readRows rows).1).isEmpty = true
    · simp [process_sensor_data, hE]
    · cases hM : calculate_metrics sq (readRows rows).1 with
      | none => simp [process_sensor_data, hE, hM]
      | some m => simp [process_sensor_data, hE, hM]

/-- Claim C10: under the Sensor Reading invariant (power ≥ 0), every hour
bucket's mean power is non-negative and so strictly exceeds the sentinel
best of -1; hence for non-empty data the peak search always selects a
bucket, `peak_hour` is never `None`, and the final formatting step cannot
fault — `calculate_metrics` returns a report. -/
theorem claim_C10_peak_never_none (sq : ℚ → ℚ) (data : List SensorReading)
    (hne : data ≠ []) (hpow : ∀ r ∈ data, 0 ≤ r.power) :
    (∀ b ∈ hourlyPower data, 0 ≤ mean b.2 ∧ (-1 : ℚ) < mean b.2) ∧
    (peakFold (hourlyPower data) none (-1)).1 ≠ none ∧
    (calculate_metrics sq data).isSome = true := by
  refine ⟨?_, ?_, ?_⟩
  · intro b hb
    have h0 : 0 ≤ mean b.2 := by
      apply mean_nonneg
      intro x hx
      obtain ⟨r, hr, rfl⟩ := hourlyPower_mem_power data b hb x hx
      exact hpow r hr
    exact ⟨h0, by linarith⟩
  · obtain ⟨m, pre, b, post, _, _, hfold, _⟩ := metrics_master sq data hne hpow
    rw [hfold]
    simp
  · obtain ⟨m, _, _, _, hm, _⟩ := metrics_master sq data hne hpow
    rw [hm]
    rfl

/-- Witness for C10 at the three-reading input. -/
theorem claim_C10_witness :
    (∀ b ∈ hourlyPower wData3, 0 ≤ mean b.2 ∧ (-1 : ℚ) < mean b.2) ∧
    (peakFold (hourlyPower wData3) none (-1)).1 ≠ none ∧
    (calculate_metrics id wData3).isSome = true :=
  claim_C10_peak_never_none id wData3 (by decide) (by decide)

end Tarucca
